import Mathlib

/-!
Verification of the rotomind fantasy-basketball repository.

The repository ships a Next.js frontend; the statistical core described by
the specification (StatsNormalizer, RotoStandingsEngine) lives in a backend
service whose source is not part of this checkout, so those components are
modelled from the specification text.  The frontend utilities
(`formatOrdinal` in the formatting helpers, the `swapTeams` action of the
trade-builder zustand store) are embedded directly from their TypeScript
source.
-/

namespace Rotomind

/-! ## Frontend utility: formatOrdinal

Source (`src/unnamed/part_001`):
```
export function formatOrdinal(n: number): string {
  const s = ["th", "st", "nd", "rd"];
  const v = n % 100;
  return n + (s[(v - 20) % 10] || s[v] || s[0]);
}
```

JavaScript array indexing with an out-of-range or negative index yields
`undefined`, and `x || y` falls through to `y` when `x` is `undefined`.
JavaScript's `%` on integers is truncated remainder (sign of the dividend),
which is `Int.tmod`.  `jsGet` reproduces `s[i]` for an integer index.
-/

/-- JavaScript array access `s[i]` for an integer index: `none` (undefined)
when the index is negative or out of range. -/
def jsGet (s : List String) (i : Int) : Option String :=
  if 0 ≤ i then s.get? i.toNat else none

/-- The suffix expression of `formatOrdinal`, as a function of `v = n % 100`:
`s[(v - 20) % 10] || s[v] || s[0]`, with a JavaScript `undefined`
string-coercion as the (unreachable) final fallback. -/
def jsOrdSuffix (v : Nat) : String :=
  let s : List String := ["th", "st", "nd", "rd"]
  ((jsGet s (Int.tmod ((v : Int) - 20) 10)).orElse
    (fun _ => jsGet s (v : Int))).orElse (fun _ => jsGet s 0) |>.getD "undefined"

/-- `formatOrdinal` from the frontend formatting utilities. -/
def formatOrdinal (n : Nat) : String :=
  toString n ++ jsOrdSuffix (n % 100)

/-- The English ordinal-suffix rule: "st"/"nd"/"rd" for last digit 1/2/3
except for 11/12/13 mod 100, otherwise "th". -/
def ordinalSuffixSpec (n : Nat) : String :=
  if n % 10 = 1 ∧ n % 100 ≠ 11 then "st"
  else if n % 10 = 2 ∧ n % 100 ≠ 12 then "nd"
  else if n % 10 = 3 ∧ n % 100 ≠ 13 then "rd"
  else "th"

/-! ## Frontend trade-builder store: swapTeams

Source (`src/unnamed/part_003`): the zustand store state and the
`swapTeams` action, which exchanges the two teams' fields and clears the
analysis result.  Zustand's `set` merges the returned partial state, so
fields not mentioned (`isAnalyzing`) are preserved.
-/

/-- Per-category numeric breakdown (`CategoryBreakdown` in
`src/frontend/lib/types/index.ts`). -/
structure CategoryBreakdown where
  pts : ℚ
  reb : ℚ
  ast : ℚ
  stl : ℚ
  blk : ℚ
  tpm : ℚ
  fg_pct : ℚ
  ft_pct : ℚ
deriving DecidableEq, Repr

/-- One side's impact in a trade analysis (`TradeImpact`). -/
structure TradeImpact where
  before : ℚ
  after : ℚ
  diff : ℚ
  category_changes : CategoryBreakdown
deriving DecidableEq, Repr

/-- Result of a trade analysis (`TradeResult`). -/
structure TradeResult where
  team_a : TradeImpact
  team_b : TradeImpact
deriving DecidableEq, Repr

/-- The trade-builder store state (`TradeBuilderState` in
`src/unnamed/part_003`).  Players are identified by numeric ids. -/
structure TradeBuilderState where
  teamAId : Option Int
  teamAPlayers : List Nat
  playersToSend : List Nat
  teamBId : Option Int
  teamBPlayers : List Nat
  playersToReceive : List Nat
  result : Option TradeResult
  isAnalyzing : Bool
deriving DecidableEq, Repr

/-- The `swapTeams` action: exchanges team A's and team B's id, roster and
selected players, and clears the analysis result. -/
def swapTeams (s : TradeBuilderState) : TradeBuilderState :=
  { s with
    teamAId := s.teamBId
    teamAPlayers := s.teamBPlayers
    playersToSend := s.playersToReceive
    teamBId := s.teamAId
    teamBPlayers := s.teamAPlayers
    playersToReceive := s.playersToSend
    result := none }

/-! ## RotoStandingsEngine (modelled from the spec)

The backend service implementing `computeStandings` and `analyzeTrade` is
not part of this checkout (only its HTTP callers under
`src/frontend/lib/api` are), so the engine is modelled from the
specification text (§4.2 of the spec). -/

/-- The 8 tracked categories. -/
inductive Cat
  | pts | reb | ast | stl | blk | tpm | fg_pct | ft_pct
deriving DecidableEq, Repr

/-- Projection of a category out of a per-category breakdown. -/
def Cat.val (c : Cat) (b : CategoryBreakdown) : ℚ :=
  match c with
  | .pts => b.pts
  | .reb => b.reb
  | .ast => b.ast
  | .stl => b.stl
  | .blk => b.blk
  | .tpm => b.tpm
  | .fg_pct => b.fg_pct
  | .ft_pct => b.ft_pct

/-- A fantasy team: id plus roster of player ids. -/
structure FantasyTeam where
  id : Nat
  roster : List Nat
deriving DecidableEq, Repr

/-- Modelled from the spec: a team's raw total in a category is the sum of
its rostered players' values in that category. -/
def rawTotal (stats : Nat → CategoryBreakdown) (c : Cat) (team : FantasyTeam) : ℚ :=
  (team.roster.map (fun p => c.val (stats p))).sum

/-- Modelled from the spec: the standard-competition rank of total `t`
within the population `totals` (higher is better): one more than the number
of strictly greater totals; tied totals share a rank and the next distinct
rank skips by the tie count. -/
def rankAt (totals : List ℚ) (t : ℚ) : Nat :=
  1 + (totals.filter (fun u => t < u)).length

/-- Modelled from the spec: the rank list for a list of team category
totals, in team order. -/
def ranks (totals : List ℚ) : List Nat :=
  totals.map (rankAt totals)

/-- Modelled from the spec: `computeStandings` produces, for each category,
the teams' ranks (in team order) computed from raw category totals. -/
def computeStandings (teams : List FantasyTeam) (stats : Nat → CategoryBreakdown) :
    Cat → List Nat :=
  fun c => ranks (teams.map (rawTotal stats c))

/-- Error taxonomy of the trade analyzer. -/
inductive TradeError
  | InvalidTradeComposition
deriving DecidableEq, Repr

/-- Componentwise difference of two category breakdowns. -/
def subCB (a b : CategoryBreakdown) : CategoryBreakdown :=
  ⟨a.pts - b.pts, a.reb - b.reb, a.ast - b.ast, a.stl - b.stl,
   a.blk - b.blk, a.tpm - b.tpm, a.fg_pct - b.fg_pct, a.ft_pct - b.ft_pct⟩

/-- Per-category aggregate over a roster, as a breakdown. -/
def rosterCats (stats : Nat → CategoryBreakdown) (roster : List Nat) : CategoryBreakdown :=
  ⟨(roster.map (fun p => (stats p).pts)).sum,
   (roster.map (fun p => (stats p).reb)).sum,
   (roster.map (fun p => (stats p).ast)).sum,
   (roster.map (fun p => (stats p).stl)).sum,
   (roster.map (fun p => (stats p).blk)).sum,
   (roster.map (fun p => (stats p).tpm)).sum,
   (roster.map (fun p => (stats p).fg_pct)).sum,
   (roster.map (fun p => (stats p).ft_pct)).sum⟩

/-- A player's aggregate value (z-total) is the sum of their 8 category
values. -/
def playerTotal (stats : Nat → CategoryBreakdown) (p : Nat) : ℚ :=
  (stats p).pts + (stats p).reb + (stats p).ast + (stats p).stl +
  (stats p).blk + (stats p).tpm + (stats p).fg_pct + (stats p).ft_pct

/-- A roster's aggregate total. -/
def rosterTotal (stats : Nat → CategoryBreakdown) (roster : List Nat) : ℚ :=
  (roster.map (playerTotal stats)).sum

/-- The hypothetical roster after a trade: current roster minus the players
sent, plus the players received. -/
def hypotheticalRoster (roster sent received : List Nat) : List Nat :=
  roster.filter (fun p => ¬ p ∈ sent) ++ received

/-- One side of the before/after diff. -/
def tradeImpactFor (stats : Nat → CategoryBreakdown) (before after : List Nat) :
    TradeImpact :=
  { before := rosterTotal stats before
    after := rosterTotal stats after
    diff := rosterTotal stats after - rosterTotal stats before
    category_changes := subCB (rosterCats stats after) (rosterCats stats before) }

/-- Modelled from the spec: `analyzeTrade` validates that the sent players
belong to the stated source rosters, then returns the before/after diff for
both hypothetical rosters; otherwise it fails with
`InvalidTradeComposition` and returns no partial result. -/
def analyzeTrade (teamA teamB : FantasyTeam) (playersToB playersToA : List Nat)
    (stats : Nat → CategoryBreakdown) : Except TradeError TradeResult :=
  if (∀ p ∈ playersToB, p ∈ teamA.roster) ∧ (∀ p ∈ playersToA, p ∈ teamB.roster) then
    .ok
      { team_a := tradeImpactFor stats teamA.roster
          (hypotheticalRoster teamA.roster playersToB playersToA)
        team_b := tradeImpactFor stats teamB.roster
          (hypotheticalRoster teamB.roster playersToA playersToB) }
  else
    .error .InvalidTradeComposition

/-- Persisted roster state, keyed by team id. -/
structure RosterStore where
  rosters : Nat → List Nat

/-- Modelled from the spec: `analyzeTrade` as run against the persisted
store — a simulation that reads nothing from and writes nothing to the
store; the state is threaded explicitly to make the frame condition
expressible. -/
def analyzeTradeInStore (store : RosterStore) (teamA teamB : FantasyTeam)
    (playersToB playersToA : List Nat) (stats : Nat → CategoryBreakdown) :
    Except TradeError TradeResult × RosterStore :=
  (analyzeTrade teamA teamB playersToB playersToA stats, store)

/-! ## StatsNormalizer (modelled from the spec)

The backend `normalize` operation is not part of this checkout; it is
modelled from §4.1 of the spec: population mean/standard-deviation
Z-normalization per category, impact values for the percentage categories,
Z = 0 on zero variance, `InvalidPopulation` on empty or malformed input. -/

/-- Population mean of a list of rationals (0 for the empty list, whose
mean is never used). -/
def meanQ (xs : List ℚ) : ℚ := xs.sum / xs.length

/-- Population variance of a list of rationals. -/
def varQ (xs : List ℚ) : ℚ :=
  ((xs.map (fun x => (x - meanQ xs) ^ 2)).sum) / xs.length

/-- Modelled from the spec: a raw stat line with the six counting
categories and makes/attempts aggregates for the two percentage
categories; `none` marks a missing required field. -/
structure RawStatLine where
  pts : Option ℚ
  reb : Option ℚ
  ast : Option ℚ
  stl : Option ℚ
  blk : Option ℚ
  tpm : Option ℚ
  fgm : Option ℚ
  fga : Option ℚ
  ftm : Option ℚ
  fta : Option ℚ
deriving DecidableEq, Repr

/-- All required category fields are present. -/
def hasAllFields (l : RawStatLine) : Bool :=
  l.pts.isSome && l.reb.isSome && l.ast.isSome && l.stl.isSome &&
  l.blk.isSome && l.tpm.isSome && l.fgm.isSome && l.fga.isSome &&
  l.ftm.isSome && l.fta.isSome

/-- League average field-goal percentage: total makes over total attempts
across the population. -/
def fgLeagueAvg (p : List RawStatLine) : ℚ :=
  (p.map (fun l => l.fgm.getD 0)).sum / (p.map (fun l => l.fga.getD 0)).sum

/-- League average free-throw percentage. -/
def ftLeagueAvg (p : List RawStatLine) : ℚ :=
  (p.map (fun l => l.ftm.getD 0)).sum / (p.map (fun l => l.fta.getD 0)).sum

/-- Modelled from the spec: the per-player values that get Z-normalized in
a category — the raw value for counting categories, the impact value
`makes − attempts × league_average_percentage` for percentage
categories. -/
def catValues (c : Cat) (p : List RawStatLine) : List ℚ :=
  match c with
  | .pts => p.map (fun l => l.pts.getD 0)
  | .reb => p.map (fun l => l.reb.getD 0)
  | .ast => p.map (fun l => l.ast.getD 0)
  | .stl => p.map (fun l => l.stl.getD 0)
  | .blk => p.map (fun l => l.blk.getD 0)
  | .tpm => p.map (fun l => l.tpm.getD 0)
  | .fg_pct => p.map (fun l => l.fgm.getD 0 - l.fga.getD 0 * fgLeagueAvg p)
  | .ft_pct => p.map (fun l => l.ftm.getD 0 - l.fta.getD 0 * ftLeagueAvg p)

/-- Modelled from the spec: Z-normalize a list of values across the
population; on zero variance every Z-score is 0 instead of a division by
zero. -/
noncomputable def zscoresList (xs : List ℚ) : List ℝ :=
  if varQ xs = 0 then xs.map (fun _ => (0 : ℝ))
  else xs.map (fun x : ℚ =>
    ((x : ℝ) - ((meanQ xs : ℚ) : ℝ)) / Real.sqrt ((varQ xs : ℚ) : ℝ))

/-- Error taxonomy of the normalizer. -/
inductive NormError
  | InvalidPopulation
deriving DecidableEq, Repr

/-- Modelled from the spec: `normalize` rejects an empty or malformed
population with `InvalidPopulation`, otherwise returns each category's
Z-score column (in input player order). -/
noncomputable def normalize (p : List RawStatLine) :
    Except NormError (Cat → List ℝ) :=
  if p = [] ∨ ∃ l ∈ p, hasAllFields l = false then .error .InvalidPopulation
  else .ok (fun c => zscoresList (catValues c p))

/-- Population mean of a list of reals. -/
noncomputable def meanR (l : List ℝ) : ℝ := l.sum / l.length

/-- Population variance of a list of reals. -/
noncomputable def varR (l : List ℝ) : ℝ :=
  ((l.map (fun x => (x - meanR l) ^ 2)).sum) / l.length

/-- Population standard deviation of a list of reals. -/
noncomputable def stddevR (l : List ℝ) : ℝ := Real.sqrt (varR l)

/-- A complete stat line with the given PTS value and all other fields 0. -/
def ptsLine (v : ℚ) : RawStatLine :=
  ⟨some v, some 0, some 0, some 0, some 0, some 0, some 0, some 0, some 0, some 0⟩

/-- Three-player demo population with PTS values 20, 25, 30. -/
def demoPop3 : List RawStatLine := [ptsLine 20, ptsLine 25, ptsLine 30]

/-- Four one-player demo teams whose PTS totals are 10, 8, 8, 5. -/
def demoTeams : List FantasyTeam :=
  [⟨0, [0]⟩, ⟨1, [1]⟩, ⟨2, [2]⟩, ⟨3, [3]⟩]

/-- Demo stat table: player 0 scores 10 PTS, players 1 and 2 score 8,
player 3 scores 5; every other value is 0. -/
def demoStats : Nat → CategoryBreakdown := fun p =>
  ⟨if p = 0 then 10 else if p = 1 then 8 else if p = 2 then 8 else
    if p = 3 then 5 else 0, 0, 0, 0, 0, 0, 0, 0⟩

end Rotomind

namespace Rotomind

/-- Splitting a `countP` along a pointwise exclusive disjunction. -/
theorem countP_split {α : Type} (l : List α) (r p q : α → Bool)
    (h : ∀ x ∈ l, ((r x = true) ↔ (p x = true ∨ q x = true)) ∧
      ¬(p x = true ∧ q x = true)) :
    l.countP r = l.countP p + l.countP q := by
  induction l with
  | nil => simp
  | cons a l ih =>
    have ha := h a (List.mem_cons_self a l)
    have hl : ∀ x ∈ l, ((r x = true) ↔ (p x = true ∨ q x = true)) ∧
        ¬(p x = true ∧ q x = true) :=
      fun x hx => h x (List.mem_cons_of_mem a hx)
    by_cases hp : p a = true <;> by_cases hq : q a = true
    · exact absurd ⟨hp, hq⟩ ha.2
    · have hr : r a = true := ha.1.mpr (Or.inl hp)
      simp [List.countP_cons, hr, hp, hq, ih hl]
      omega
    · have hr : r a = true := ha.1.mpr (Or.inr hq)
      simp [List.countP_cons, hr, hp, hq, ih hl]
      omega
    · have hr : ¬ r a = true := fun hr => (ha.1.mp hr).elim hp hq
      simp [List.countP_cons, hr, hp, hq, ih hl]

/-- The JS suffix computation agrees with the English ordinal rule on every
residue below 100. -/
theorem jsOrdSuffix_eq_spec : ∀ v < 100, jsOrdSuffix v = ordinalSuffixSpec v := by
  decide

/-- The spec-side suffix only depends on `n % 100`. -/
theorem ordinalSuffixSpec_mod (n : Nat) :
    ordinalSuffixSpec (n % 100) = ordinalSuffixSpec n := by
  unfold ordinalSuffixSpec
  rw [Nat.mod_mod_of_dvd n (by norm_num : (10:Nat) ∣ 100), Nat.mod_mod_of_dvd n dvd_rfl]

/-- C9: `formatOrdinal(n)` is the decimal representation of `n` followed by
"st" when `n % 10 = 1` and `n % 100 ≠ 11`, "nd" when `n % 10 = 2` and
`n % 100 ≠ 12`, "rd" when `n % 10 = 3` and `n % 100 ≠ 13`, and "th"
otherwise (including 11, 12, 13). -/
theorem formatOrdinal_correct (n : Nat) :
    formatOrdinal n = toString n ++ ordinalSuffixSpec n := by
  unfold formatOrdinal
  rw [jsOrdSuffix_eq_spec (n % 100) (Nat.mod_lt n (by norm_num)),
    ordinalSuffixSpec_mod]

/-- C10: applying `swapTeams` twice restores the two team ids, rosters and
selected-player lists, and each single application clears the analysis
result. -/
theorem swapTeams_involutive_and_clears (s : TradeBuilderState) :
    (swapTeams (swapTeams s)).teamAId = s.teamAId ∧
    (swapTeams (swapTeams s)).teamAPlayers = s.teamAPlayers ∧
    (swapTeams (swapTeams s)).playersToSend = s.playersToSend ∧
    (swapTeams (swapTeams s)).teamBId = s.teamBId ∧
    (swapTeams (swapTeams s)).teamBPlayers = s.teamBPlayers ∧
    (swapTeams (swapTeams s)).playersToReceive = s.playersToReceive ∧
    (swapTeams s).result = none ∧
    (swapTeams (swapTeams s)).result = none := by
  refine ⟨rfl, rfl, rfl, rfl, rfl, rfl, rfl, rfl⟩

/-- Entry `i` of the rank list is the competition rank of total `i`. -/
theorem ranks_getD (totals : List ℚ) (i : Nat) (hi : i < totals.length) :
    (ranks totals).getD i 0 = rankAt totals (totals.getD i 0) := by
  have h' : i < (ranks totals).length := by simpa [ranks] using hi
  rw [List.getD_eq_getElem _ _ h', List.getD_eq_getElem _ _ hi]
  simp [ranks]

/-- The competition rank of a strictly smaller total, when no total lies
strictly between, exceeds the larger total's rank by exactly the number of
teams tied at the larger total. -/
theorem rankAt_skip (totals : List ℚ) (t t' : ℚ) (hlt : t' < t)
    (hbetween : ∀ u ∈ totals, ¬(t' < u ∧ u < t)) :
    rankAt totals t' = rankAt totals t + totals.count t := by
  unfold rankAt
  rw [List.count_eq_countP, ← List.countP_eq_length_filter, ← List.countP_eq_length_filter]
  rw [countP_split totals (fun u => t' < u) (fun u => t < u) (fun u => u == t)]
  · omega
  · intro x hx
    constructor
    · constructor
      · intro hr
        have hx' : t' < x := by simpa using hr
        rcases lt_trichotomy x t with h | h | h
        · exact absurd ⟨hx', h⟩ (hbetween x hx)
        · exact Or.inr (by simpa using h)
        · exact Or.inl (by simpa using h)
      · intro hpq
        rcases hpq with h | h
        · have : t < x := by simpa using h
          simpa using lt_trans hlt this
        · have : x = t := by simpa using h
          subst this
          simpa using hlt
    · rintro ⟨hp, hq⟩
      have h1 : t < x := by simpa using hp
      have h2 : x = t := by simpa using hq
      subst h2
      exact lt_irrefl x h1

/-- C4: `computeStandings` assigns standard competition ranks from raw
category totals: tied totals receive the same rank; the next distinct rank
skips by the number of tied teams; and the demo totals [10, 8, 8, 5] yield
ranks [1, 2, 2, 4] (both through `computeStandings` and directly on the
rank list). -/
theorem computeStandings_competition_ranking
    (totals : List ℚ) (i j : Nat) (hi : i < totals.length) (hj : j < totals.length)
    (htie : totals.getD i 0 = totals.getD j 0) :
    (∀ (teams : List FantasyTeam) (stats : Nat → CategoryBreakdown) (c : Cat),
      computeStandings teams stats c = ranks (teams.map (rawTotal stats c))) ∧
    (ranks totals).getD i 0 = (ranks totals).getD j 0 ∧
    (∀ (t t' : ℚ), t' < t → (∀ u ∈ totals, ¬(t' < u ∧ u < t)) →
      rankAt totals t' = rankAt totals t + totals.count t) ∧
    computeStandings demoTeams demoStats Cat.pts = [1, 2, 2, 4] ∧
    ranks [(10 : ℚ), 8, 8, 5] = [1, 2, 2, 4] := by
  refine ⟨fun _ _ _ => rfl, ?_, fun t t' hlt hb => rankAt_skip totals t t' hlt hb, ?_, ?_⟩
  · rw [ranks_getD totals i hi, ranks_getD totals j hj, htie]
  · have htot : demoTeams.map (rawTotal demoStats Cat.pts) = [10, 8, 8, 5] := by
      simp [demoTeams, demoStats, rawTotal, Cat.val]
    show ranks (demoTeams.map (rawTotal demoStats Cat.pts)) = [1, 2, 2, 4]
    rw [htot]
    decide
  · decide

/-- Witness for C4 at the concrete totals [10, 8, 8, 5] with i = 1, j = 2
(the tied teams). -/
theorem computeStandings_competition_ranking_witness :
    (ranks [(10 : ℚ), 8, 8, 5]).getD 1 0 = (ranks [(10 : ℚ), 8, 8, 5]).getD 2 0 ∧
    rankAt [(10 : ℚ), 8, 8, 5] 5 =
      rankAt [(10 : ℚ), 8, 8, 5] 8 + ([(10 : ℚ), 8, 8, 5].count 8) := by
  have h := computeStandings_competition_ranking [(10 : ℚ), 8, 8, 5] 1 2
    (by decide) (by decide) (by decide)
  exact ⟨h.2.1, h.2.2.1 8 5 (by decide) (by decide)⟩

/-- C5: a trade whose sent players are not a subset of the stated source
rosters fails with `InvalidTradeComposition` and yields no partial
result. -/
theorem analyzeTrade_invalid_composition (teamA teamB : FantasyTeam)
    (playersToB playersToA : List Nat) (stats : Nat → CategoryBreakdown)
    (h : ¬((∀ p ∈ playersToB, p ∈ teamA.roster) ∧
      (∀ p ∈ playersToA, p ∈ teamB.roster))) :
    analyzeTrade teamA teamB playersToB playersToA stats =
      .error .InvalidTradeComposition := by
  unfold analyzeTrade
  exact if_neg h

/-- Witness for C5: sending player 5, who is not on team A's roster
[1, 2], is rejected. -/
theorem analyzeTrade_invalid_composition_witness :
    analyzeTrade ⟨0, [1, 2]⟩ ⟨1, [3, 4]⟩ [5] [3] (fun _ => ⟨0, 0, 0, 0, 0, 0, 0, 0⟩) =
      .error .InvalidTradeComposition :=
  analyzeTrade_invalid_composition ⟨0, [1, 2]⟩ ⟨1, [3, 4]⟩ [5] [3]
    (fun _ => ⟨0, 0, 0, 0, 0, 0, 0, 0⟩) (by decide)

/-- C7: `analyzeTrade` is a pure simulation: the persisted roster store is
unchanged by the call (success or failure alike), and the returned value is
a function of the arguments alone. -/
theorem analyzeTrade_pure (store : RosterStore) (teamA teamB : FantasyTeam)
    (playersToB playersToA : List Nat) (stats : Nat → CategoryBreakdown) :
    (analyzeTradeInStore store teamA teamB playersToB playersToA stats).2 = store ∧
    (analyzeTradeInStore store teamA teamB playersToB playersToA stats).1 =
      analyzeTrade teamA teamB playersToB playersToA stats :=
  ⟨rfl, rfl⟩

/-- C6: `normalize` fails with `InvalidPopulation` exactly when the
population is empty or some stat line is missing a required field; a valid
non-empty population always yields a result. -/
theorem normalize_invalid_population_iff (p : List RawStatLine) :
    (normalize p = .error .InvalidPopulation ↔
      (p = [] ∨ ∃ l ∈ p, hasAllFields l = false)) ∧
    (¬(p = [] ∨ ∃ l ∈ p, hasAllFields l = false) →
      normalize p = .ok (fun c => zscoresList (catValues c p))) := by
  by_cases h : p = [] ∨ ∃ l ∈ p, hasAllFields l = false
  · exact ⟨⟨fun _ => h, fun _ => by simp [normalize, h]⟩, fun hc => absurd h hc⟩
  · refine ⟨⟨fun he => ?_, fun hh => absurd hh h⟩, fun _ => by simp [normalize, h]⟩
    rw [normalize, if_neg h] at he
    exact Except.noConfusion he

/-- Witness for C6: the three-player demo population is valid and
normalizes successfully. -/
theorem normalize_invalid_population_iff_witness :
    normalize demoPop3 = .ok (fun c => zscoresList (catValues c demoPop3)) :=
  (normalize_invalid_population_iff demoPop3).2 (by decide)

/-- C1: on a valid population `normalize` produces, for each percentage
category, the Z-normalization of the impact values
`makes − attempts × league_average_percentage` (league average = total
makes over total attempts), not of any per-game percentage average. -/
theorem normalize_percentage_from_impact (p : List RawStatLine)
    (h : ¬(p = [] ∨ ∃ l ∈ p, hasAllFields l = false)) :
    normalize p = .ok (fun c => zscoresList (catValues c p)) ∧
    catValues Cat.fg_pct p =
      p.map (fun l => l.fgm.getD 0 - l.fga.getD 0 *
        ((p.map (fun l' => l'.fgm.getD 0)).sum / (p.map (fun l' => l'.fga.getD 0)).sum)) ∧
    catValues Cat.ft_pct p =
      p.map (fun l => l.ftm.getD 0 - l.fta.getD 0 *
        ((p.map (fun l' => l'.ftm.getD 0)).sum / (p.map (fun l' => l'.fta.getD 0)).sum)) :=
  ⟨by simp [normalize, h], rfl, rfl⟩

/-- Witness for C1 at the three-player demo population. -/
theorem normalize_percentage_from_impact_witness :
    normalize demoPop3 = .ok (fun c => zscoresList (catValues c demoPop3)) :=
  (normalize_percentage_from_impact demoPop3 (by decide)).1

/-- C2: on a zero-variance category `normalize` still succeeds and every
Z-score of that category is 0 — the degenerate case is handled locally,
not surfaced as an error. -/
theorem normalize_zero_variance_zscores (p : List RawStatLine) (c : Cat)
    (hvalid : ¬(p = [] ∨ ∃ l ∈ p, hasAllFields l = false))
    (hvar : varQ (catValues c p) = 0) :
    normalize p = .ok (fun c => zscoresList (catValues c p)) ∧
    ∀ z ∈ zscoresList (catValues c p), z = 0 := by
  refine ⟨by simp [normalize, hvalid], fun z hz => ?_⟩
  rw [zscoresList, if_pos hvar] at hz
  rcases List.mem_map.mp hz with ⟨a, _, ha⟩
  exact ha.symm

/-- Witness for C2: a single-player population has zero PTS variance, and
its PTS Z-score is 0. -/
theorem normalize_zero_variance_zscores_witness :
    normalize [ptsLine 20] = .ok (fun c => zscoresList (catValues c [ptsLine 20])) ∧
    ∀ z ∈ zscoresList (catValues Cat.pts [ptsLine 20]), z = 0 :=
  normalize_zero_variance_zscores [ptsLine 20] Cat.pts (by decide)
    (by norm_num [varQ, meanQ, catValues, ptsLine])

/-- Sum of a shifted-and-scaled cast list. -/
theorem sum_map_shift_div (xs : List ℚ) (c d : ℝ) :
    (xs.map (fun x : ℚ => ((x : ℝ) - c) / d)).sum =
      (((xs.sum : ℚ) : ℝ) - xs.length * c) / d := by
  induction xs with
  | nil => simp
  | cons a xs ih =>
    simp only [List.map_cons, List.sum_cons, ih, List.length_cons, List.sum_cons]
    rw [div_add_div_same]
    push_cast
    ring_nf

/-- Sum of squared scaled values factors the scale out. -/
theorem sum_map_sq_div (xs : List ℚ) (c d : ℝ) :
    (xs.map (fun x : ℚ => (((x : ℝ) - c) / d) ^ 2)).sum =
      ((xs.map (fun x : ℚ => ((x : ℝ) - c) ^ 2)).sum) / d ^ 2 := by
  induction xs with
  | nil => simp
  | cons a xs ih =>
    simp only [List.map_cons, List.sum_cons, ih]
    rw [div_pow, div_add_div_same]

/-- The sum of squared deviations commutes with the cast to ℝ. -/
theorem sum_map_sq_cast (xs : List ℚ) (cq : ℚ) :
    (xs.map (fun x : ℚ => ((x : ℝ) - ((cq : ℚ) : ℝ)) ^ 2)).sum =
      (((xs.map (fun x => (x - cq) ^ 2)).sum : ℚ) : ℝ) := by
  induction xs with
  | nil => simp
  | cons a xs ih =>
    simp only [List.map_cons, List.sum_cons]
    rw [ih, Rat.cast_add]
    congr 1
    push_cast
    ring

/-- Population variance is nonnegative. -/
theorem varQ_nonneg (xs : List ℚ) : 0 ≤ varQ xs := by
  unfold varQ
  apply div_nonneg
  · apply List.sum_nonneg
    intro x hx
    rcases List.mem_map.mp hx with ⟨y, _, hy⟩
    exact hy ▸ sq_nonneg _
  · exact_mod_cast Nat.zero_le _

/-- A population with nonzero variance is nonempty. -/
theorem ne_nil_of_varQ_ne_zero (xs : List ℚ) (h : varQ xs ≠ 0) : xs ≠ [] := by
  intro hnil
  subst hnil
  simp [varQ] at h

/-- On nonzero variance the Z-scores have population mean 0. -/
theorem zscoresList_mean_zero (xs : List ℚ) (hv : varQ xs ≠ 0) :
    meanR (zscoresList xs) = 0 := by
  have hne : xs ≠ [] := ne_nil_of_varQ_ne_zero xs hv
  have hn : (xs.length : ℝ) ≠ 0 := by
    exact_mod_cast Nat.pos_of_ne_zero (fun h0 => hne (List.length_eq_zero.mp h0)) |>.ne'
  rw [zscoresList, if_neg hv, meanR, sum_map_shift_div]
  have hmean : ((meanQ xs : ℚ) : ℝ) = ((xs.sum : ℚ) : ℝ) / (xs.length : ℝ) := by
    rw [meanQ]
    push_cast
    ring
  have hcancel : (xs.length : ℝ) * (((xs.sum : ℚ) : ℝ) / (xs.length : ℝ)) =
      ((xs.sum : ℚ) : ℝ) := by
    field_simp
  rw [hmean, hcancel, sub_self, zero_div, zero_div]

/-- On nonzero variance the Z-scores have population standard deviation
1. -/
theorem zscoresList_stddev_one (xs : List ℚ) (hv : varQ xs ≠ 0) :
    stddevR (zscoresList xs) = 1 := by
  have hne : xs ≠ [] := ne_nil_of_varQ_ne_zero xs hv
  have hn : (xs.length : ℝ) ≠ 0 := by
    exact_mod_cast Nat.pos_of_ne_zero (fun h0 => hne (List.length_eq_zero.mp h0)) |>.ne'
  have hvpos : (0 : ℝ) < ((varQ xs : ℚ) : ℝ) := by
    have := lt_of_le_of_ne (varQ_nonneg xs) (Ne.symm hv)
    exact_mod_cast this
  have hσpos : 0 < Real.sqrt ((varQ xs : ℚ) : ℝ) := Real.sqrt_pos.mpr hvpos
  have hσ2 : Real.sqrt ((varQ xs : ℚ) : ℝ) ^ 2 = ((varQ xs : ℚ) : ℝ) :=
    Real.sq_sqrt hvpos.le
  have hmean0 := zscoresList_mean_zero xs hv
  rw [stddevR, varR, hmean0]
  rw [zscoresList, if_neg hv]
  simp only [List.map_map, List.length_map, Function.comp_def, sub_zero]
  rw [sum_map_sq_div, sum_map_sq_cast, hσ2]
  have hS2 : ((varQ xs : ℚ) : ℝ) =
      (((xs.map (fun x => (x - meanQ xs) ^ 2)).sum : ℚ) : ℝ) / (xs.length : ℝ) := by
    rw [varQ]
    push_cast
    ring
  have hS2ne : (((xs.map (fun x => (x - meanQ xs) ^ 2)).sum : ℚ) : ℝ) ≠ 0 := by
    intro h0
    rw [hS2, h0, zero_div] at hvpos
    exact lt_irrefl 0 hvpos
  rw [hS2]
  have hfin : ∀ S n : ℝ, S ≠ 0 → n ≠ 0 → S / (S / n) / n = 1 := by
    intro S n hS hn0
    rw [div_div_eq_mul_div, mul_comm, mul_div_assoc, div_self hS, mul_one,
      div_self hn0]
  rw [hfin _ _ hS2ne hn, Real.sqrt_one]

/-- The PTS column of the demo population. -/
theorem demoPop3_pts_values : catValues Cat.pts demoPop3 = [20, 25, 30] := rfl

/-- Mean of the demo PTS values. -/
theorem demoPop3_mean : meanQ [(20 : ℚ), 25, 30] = 25 := by
  norm_num [meanQ]

/-- Population variance of the demo PTS values. -/
theorem demoPop3_var : varQ [(20 : ℚ), 25, 30] = 50 / 3 := by
  norm_num [varQ, meanQ]

/-- The demo PTS Z-scores are approximately [-1.22, 0, 1.22]. -/
theorem demoPop3_pts_zscores :
    ∃ z₁ z₃ : ℝ, zscoresList (catValues Cat.pts demoPop3) = [z₁, 0, z₃] ∧
      |z₁ - (-1.22)| < 0.01 ∧ |z₃ - 1.22| < 0.01 := by
  have hv : varQ [(20 : ℚ), 25, 30] ≠ 0 := by rw [demoPop3_var]; norm_num
  rw [demoPop3_pts_values]
  set σ : ℝ := Real.sqrt ((varQ [(20 : ℚ), 25, 30] : ℚ) : ℝ) with hσdef
  have hcast : ((varQ [(20 : ℚ), 25, 30] : ℚ) : ℝ) = 50 / 3 := by
    rw [demoPop3_var]
    push_cast
    norm_num
  have hσpos : 0 < σ := Real.sqrt_pos.mpr (by rw [hcast]; norm_num)
  have hσ2 : σ ^ 2 = 50 / 3 := by
    rw [hσdef, Real.sq_sqrt (by rw [hcast]; norm_num), hcast]
  have d1 : (5 : ℝ) / σ < 1.23 := by
    rw [div_lt_iff₀ hσpos]
    nlinarith [hσ2, hσpos]
  have d2 : (1.21 : ℝ) < 5 / σ := by
    rw [lt_div_iff₀ hσpos]
    nlinarith [hσ2, hσpos]
  refine ⟨(20 - 25 : ℝ) / σ, (30 - 25 : ℝ) / σ, ?_, ?_, ?_⟩
  · rw [zscoresList, if_neg hv]
    simp only [List.map_cons, List.map_nil, demoPop3_mean, ← hσdef]
    push_cast
    norm_num
  · have he : (20 - 25 : ℝ) / σ = -(5 / σ) := by ring
    rw [he, abs_lt]
    constructor <;> [linarith [d1]; linarith [d2]]
  · have he : (30 - 25 : ℝ) / σ = 5 / σ := by norm_num
    rw [he, abs_lt]
    constructor <;> [linarith [d2]; linarith [d1]]

/-- C3: on a population with at least 2 players and nonzero variance in a
category, the Z-scores `normalize` produces for that category have mean 0
and population standard deviation 1; in particular the 3-player demo
population with PTS [20, 25, 30] gets PTS Z-scores ≈ [-1.22, 0, 1.22]. -/
theorem normalize_zscores_standardized (p : List RawStatLine) (c : Cat)
    (hvalid : ¬(p = [] ∨ ∃ l ∈ p, hasAllFields l = false))
    (hlen : 2 ≤ p.length) (hv : varQ (catValues c p) ≠ 0) :
    (normalize p = .ok (fun c' => zscoresList (catValues c' p)) ∧
      meanR (zscoresList (catValues c p)) = 0 ∧
      stddevR (zscoresList (catValues c p)) = 1) ∧
    (∃ z₁ z₃ : ℝ, zscoresList (catValues Cat.pts demoPop3) = [z₁, 0, z₃] ∧
      |z₁ - (-1.22)| < 0.01 ∧ |z₃ - 1.22| < 0.01) :=
  ⟨⟨by simp [normalize, hvalid], zscoresList_mean_zero _ hv,
    zscoresList_stddev_one _ hv⟩, demoPop3_pts_zscores⟩

/-- Witness for C3 at the three-player demo population's PTS category. -/
theorem normalize_zscores_standardized_witness :
    meanR (zscoresList (catValues Cat.pts demoPop3)) = 0 ∧
    stddevR (zscoresList (catValues Cat.pts demoPop3)) = 1 :=
  (fun h => ⟨h.1.2.1, h.1.2.2⟩)
    (normalize_zscores_standardized demoPop3 Cat.pts (by decide) (by decide)
      (by rw [demoPop3_pts_values, demoPop3_var]; norm_num))

/-- C8: the three core operations are deterministic — identical inputs
produce identical outputs, including identical error outcomes. -/
theorem core_operations_deterministic
    (p₁ p₂ : List RawStatLine) (teams₁ teams₂ : List FantasyTeam)
    (stats₁ stats₂ : Nat → CategoryBreakdown)
    (tA₁ tA₂ tB₁ tB₂ : FantasyTeam) (toB₁ toB₂ toA₁ toA₂ : List Nat)
    (hp : p₁ = p₂) (hteams : teams₁ = teams₂) (hstats : stats₁ = stats₂)
    (hA : tA₁ = tA₂) (hB : tB₁ = tB₂) (h1 : toB₁ = toB₂) (h2 : toA₁ = toA₂) :
    normalize p₁ = normalize p₂ ∧
    computeStandings teams₁ stats₁ = computeStandings teams₂ stats₂ ∧
    analyzeTrade tA₁ tB₁ toB₁ toA₁ stats₁ = analyzeTrade tA₂ tB₂ toB₂ toA₂ stats₂ := by
  subst hp; subst hteams; subst hstats; subst hA; subst hB; subst h1; subst h2
  exact ⟨rfl, rfl, rfl⟩

/-- Witness for C8 at concrete inputs (including a failing input for
`normalize`, the empty population). -/
theorem core_operations_deterministic_witness :
    normalize [] = normalize [] ∧
    computeStandings demoTeams demoStats = computeStandings demoTeams demoStats ∧
    analyzeTrade ⟨0, []⟩ ⟨1, []⟩ [] [] demoStats =
      analyzeTrade ⟨0, []⟩ ⟨1, []⟩ [] [] demoStats :=
  core_operations_deterministic [] [] demoTeams demoTeams demoStats demoStats
    ⟨0, []⟩ ⟨0, []⟩ ⟨1, []⟩ ⟨1, []⟩ [] [] [] [] rfl rfl rfl rfl rfl rfl rfl

end Rotomind
